import Mathlib

/-!
Verification of the file-pattern matching engine in mercurial/match.py.

Paths, patterns and regular-expression sources are modelled as lists of
characters (`Str`).  The regexes the source emits for the structured
pattern kinds (glob, path, relpath, rootfilesin, relglob) are modelled by
a small regex AST together with an executable matching engine with
Python `re.match` semantics (match a prefix of the string; `$` matches
only at the end; `.` matches any character except a newline).  Arbitrary
user regexes (`re:` and `relre:` patterns) are kept as opaque source
strings whose semantics is an abstract parameter.
-/

namespace HgMatch

/-- Strings are modelled as lists of characters. -/
abbrev Str := List Char

/-- Shorthand turning a Lean string literal into a `Str`. -/
def S (s : String) : Str := s.data

/-- The left brace character (written by code point to keep it out of literals). -/
def lbrace : Char := Char.ofNat 123

/-- The right brace character. -/
def rbrace : Char := Char.ofNat 125

/-- Python `str.rstrip` whitespace set (space, tab, CR, LF, VT, FF). -/
def isSpaceCh (c : Char) : Bool :=
  c = ' ' || c = '\t' || c = '\x0d' || c = '\n' || c = '\x0b' || c = '\x0c'

/-- Strip trailing whitespace, as Python `rstrip()`. -/
def rstrip (s : Str) : Str := (s.reverse.dropWhile isSpaceCh).reverse

/-- Strip leading and trailing whitespace, as Python `strip()`. -/
def stripBoth (s : Str) : Str := (rstrip s).dropWhile isSpaceCh

/-- Split a list of characters on a separator character; mirrors Python
`str.split(sep)` (so the empty string yields `[[]]`). -/
def splitChar (sep : Char) (s : Str) : List Str :=
  match s with
  | [] => [[]]
  | c :: rest =>
    let r := splitChar sep rest
    if c = sep then [] :: r
    else match r with
         | [] => [[c]]
         | h :: t => (c :: h) :: t

/-- Join with a separator character: the inverse direction of `splitChar`. -/
def joinChar (sep : Char) (xs : List Str) : Str := List.intercalate [sep] xs

/-- The pattern kinds recognized by `_patsplit` (match.py).  `incl` stands for
the source's `include` kind and `subincl` for `subinclude` (both renamed
because `include` is a Lean keyword). -/
inductive Kind where
  | glob | relglob | re | relre | path | relpath | rootfilesin
  | set | listfile | listfile0 | incl | subincl
  deriving DecidableEq, Repr

/-- The recognized kind names, as in `_patsplit`. -/
def kindOfStr (s : Str) : Option Kind :=
  if s = S "re" then some .re
  else if s = S "glob" then some .glob
  else if s = S "path" then some .path
  else if s = S "relglob" then some .relglob
  else if s = S "relpath" then some .relpath
  else if s = S "relre" then some .relre
  else if s = S "listfile" then some .listfile
  else if s = S "listfile0" then some .listfile0
  else if s = S "set" then some .set
  else if s = S "include" then some .incl
  else if s = S "subinclude" then some .subincl
  else if s = S "rootfilesin" then some .rootfilesin
  else none

/-- Split at the first colon, as Python `pattern.split(':', 1)`. -/
def splitColon (s : Str) : Option (Str × Str) :=
  match s.findIdx? (· = ':') with
  | some i => some (s.take i, s.drop (i + 1))
  | none => none

/-- `_patsplit`: split a pattern string into the optional kind prefix and the
actual pattern (match.py lines 453-462). -/
def patsplit (p : Str) (dflt : Kind) : Kind × Str :=
  match splitColon p with
  | some (k, rest) =>
    match kindOfStr k with
    | some kk => (kk, rest)
    | none => (dflt, p)
  | none => (dflt, p)

/-- A normalized pattern triple `(kind, pat, source)`. -/
structure KindPat where
  kind : Kind
  pat : Str
  src : Str
  deriving DecidableEq, Repr

/-- `_kindpatsalwaysmatch` (match.py lines 78-85). -/
def kindpatsalwaysmatch (kps : List KindPat) : Bool :=
  kps.all (fun kp => kp.pat = [] && (kp.kind = .relpath || kp.kind = .glob))

/-- `_anypats` over kindpats (match.py lines 713-716). -/
def anypatsKP (kps : List KindPat) : Bool :=
  kps.any (fun kp =>
    kp.kind = .glob || kp.kind = .re || kp.kind = .relglob ||
    kp.kind = .relre || kp.kind = .set || kp.kind = .rootfilesin)

/-! ## A small regex AST and engine

The engine implements Python `re.match` semantics for the regexes the
source emits: the regex has to match a prefix of the input, `$` matches
only at the very end of the input, `.` matches any character except a
newline, and a negated character class matches any character not listed
(including a newline). -/

/-- An item of a character class: a single character or a range. -/
inductive CItem where
  | one (c : Char)
  | rng (a b : Char)
  deriving DecidableEq, Repr

/-- Regex AST for the fragments `_regex`/`_globre` emit.  `starCls` and
`starDot` are the starred forms of a class and of `.` (the only starred
sub-regexes the translator produces). -/
inductive RE where
  | eps
  | lit (c : Char)
  | cls (neg : Bool) (items : List CItem)
  | dot
  | cat (a b : RE)
  | alt (a b : RE)
  | opt (a : RE)
  | starCls (neg : Bool) (items : List CItem)
  | starDot
  | eos
  deriving DecidableEq, Repr

/-- Does a character belong to a (possibly negated) character class? -/
def charInClass (c : Char) (neg : Bool) (items : List CItem) : Bool :=
  (items.any (fun it =>
    match it with
    | .one a => a = c
    | .rng a b => a ≤ c && c ≤ b)) != neg

/-- Star loop: match zero or more characters satisfying `p`, then the
continuation `k` on the remainder. -/
def starLoop (p : Char → Bool) (s : Str) (k : Str → Bool) : Bool :=
  k s ||
    match s with
    | [] => false
    | c :: rest => p c && starLoop p rest k

/-- CPS regex matching: `reMatch r s k` holds when `r` matches a prefix of
`s` and `k` accepts the corresponding remainder. -/
def reMatch : RE → Str → (Str → Bool) → Bool
  | .eps, s, k => k s
  | .lit c, s, k =>
    match s with
    | [] => false
    | a :: rest => a = c && k rest
  | .cls neg items, s, k =>
    match s with
    | [] => false
    | a :: rest => charInClass a neg items && k rest
  | .dot, s, k =>
    match s with
    | [] => false
    | a :: rest => !(a = '\n') && k rest
  | .cat a b, s, k => reMatch a s (fun s2 => reMatch b s2 k)
  | .alt a b, s, k => reMatch a s k || reMatch b s k
  | .opt a, s, k => reMatch a s k || k s
  | .starCls neg items, s, k => starLoop (fun c => charInClass c neg items) s k
  | .starDot, s, k => starLoop (fun c => !(c = '\n')) s k
  | .eos, s, k => s.isEmpty && k s

/-- Python `re.match` truthiness of an AST regex on a path. -/
def reAccepts (r : RE) (f : Str) : Bool := reMatch r f (fun _ => true)

/-- A literal string as a regex (the engine-side counterpart of
`util.re.escape`, under which every escaped character matches itself). -/
def litStr (s : Str) : RE := s.foldr (fun c acc => .cat (.lit c) acc) .eps

/-! ## Glob translation (`_globre`, match.py lines 464-540)

The translator is given twice: `globreS` builds the regex source string
exactly as the Python code does (needed for the 20000-character overflow
check in `_buildregexmatch`), and `globA` builds the corresponding AST for
the engine.  An unmatched `{` makes the emitted string an invalid regex
(the `(?:` group is never closed); on the AST side this is `none`. -/

/-- Scan a character class after `[`: the first character is taken verbatim
when it is `!` or `]`, then everything up to the next `]` is the class body.
Returns `none` when no closing `]` exists (the source then emits a literal
`\[`). -/
def scanClass (cs : Str) : Option (Str × Str) :=
  match cs with
  | [] => none
  | c :: rest =>
    if c = '!' || c = ']' then
      match rest.findIdx? (· = ']') with
      | some k => some (c :: rest.take k, rest.drop (k + 1))
      | none => none
    else
      match (c :: rest).findIdx? (· = ']') with
      | some k => some ((c :: rest).take k, (c :: rest).drop (k + 1))
      | none => none

/-- Read one class token: a backslash escapes the following character. -/
def readTok : Str → Char × Str
  | '\\' :: c :: r => (c, r)
  | c :: r => (c, r)
  | [] => ('\x00', [])

/-- Parse the body of a character class into items (singles and ranges),
with backslash escapes; a trailing `-` is a literal. -/
def parseItems : Nat → Str → List CItem
  | 0, _ => []
  | _ + 1, [] => []
  | fuel + 1, cs =>
    let (c1, r1) := readTok cs
    match r1 with
    | '-' :: r2 =>
      if r2 = [] then [CItem.one c1, CItem.one '-']
      else
        let (c2, r3) := readTok r2
        CItem.rng c1 c2 :: parseItems fuel r3
    | _ => CItem.one c1 :: parseItems fuel r1

/-- Translate the scanned class body to a class AST, following `_globre`:
backslashes in the body are doubled (so a backslash is a literal class
member), a leading `!` negates, and a leading `^` is escaped to a literal. -/
def classAst (stuff : Str) : RE :=
  let d := stuff.flatMap (fun c => if c = '\\' then ['\\', '\\'] else [c])
  match d with
  | '!' :: rest => .cls true (parseItems (rest.length + 1) rest)
  | '^' :: rest => .cls false (parseItems (rest.length + 2) ('\\' :: '^' :: rest))
  | _ => .cls false (parseItems (d.length + 1) d)

/-- Build one alternation out of the collected brace-group alternatives. -/
def mkAlt : List RE → RE
  | [] => .eps
  | [r] => r
  | r :: rs => .alt r (mkAlt rs)

/-- AST builder for `_globre`.  The brace-group text emission (`(?:`, `|`,
`)`) is modelled with an explicit stack of `(regex before the group,
alternatives so far)`; an unmatched `{` leaves the stack non-empty at the
end, which is the invalid (uncompilable) case `none`. -/
def globAGo : Nat → Str → List (RE × List RE) → RE → Option RE
  | 0, _, _, _ => none
  | _ + 1, [], stack, acc => if stack.isEmpty then some acc else none
  | fuel + 1, c :: rest, stack, acc =>
    if c = '*' then
      match rest with
      | '*' :: '/' :: r2 => globAGo fuel r2 stack (.cat acc (.opt (.cat .starDot (.lit '/'))))
      | '*' :: r2 => globAGo fuel r2 stack (.cat acc .starDot)
      | _ => globAGo fuel rest stack (.cat acc (.starCls true [CItem.one '/']))
    else if c = '?' then globAGo fuel rest stack (.cat acc .dot)
    else if c = '[' then
      match scanClass rest with
      | none => globAGo fuel rest stack (.cat acc (.lit '['))
      | some (stuff, r2) => globAGo fuel r2 stack (.cat acc (classAst stuff))
    else if c = lbrace then globAGo fuel rest ((acc, []) :: stack) .eps
    else if c = rbrace then
      match stack with
      | [] => globAGo fuel rest [] (.cat acc (.lit rbrace))
      | (pre, alts) :: s2 => globAGo fuel rest s2 (.cat pre (mkAlt (alts ++ [acc])))
    else if c = ',' then
      match stack with
      | [] => globAGo fuel rest [] (.cat acc (.lit ','))
      | (pre, alts) :: s2 => globAGo fuel rest ((pre, alts ++ [acc]) :: s2) .eps
    else if c = '\\' then
      match rest with
      | p :: r2 => globAGo fuel r2 stack (.cat acc (.lit p))
      | [] => globAGo fuel [] stack (.cat acc (.lit '\\'))
    else globAGo fuel rest stack (.cat acc (.lit c))

/-- `_globre` as an AST (`none` when the emitted regex would be invalid). -/
def globA (pat : Str) : Option RE := globAGo (pat.length + 1) pat [] .eps

/-- Python 2 `re.escape`: keep `[A-Za-z0-9_]`, backslash everything else. -/
def escC (c : Char) : Str := if c.isAlphanum || c = '_' then [c] else ['\\', c]

/-- Escape a whole string, as `util.re.escape`. -/
def escapeS (s : Str) : Str := s.flatMap escC

/-- String builder for `_globre`, emitting exactly the regex text of the
source (match.py lines 464-540). -/
def globreSGo : Nat → Str → Nat → Str
  | 0, _, _ => []
  | _ + 1, [], _ => []
  | fuel + 1, c :: rest, group =>
    if c = '*' then
      match rest with
      | '*' :: '/' :: r2 => S "(?:.*/)?" ++ globreSGo fuel r2 group
      | '*' :: r2 => S ".*" ++ globreSGo fuel r2 group
      | _ => S "[^/]*" ++ globreSGo fuel rest group
    else if c = '?' then '.' :: globreSGo fuel rest group
    else if c = '[' then
      match scanClass rest with
      | none => S "\\[" ++ globreSGo fuel rest group
      | some (stuff, r2) =>
        let d := stuff.flatMap (fun x => if x = '\\' then ['\\', '\\'] else [x])
        let body :=
          match d with
          | '!' :: t => '^' :: t
          | '^' :: _ => '\\' :: d
          | _ => d
        '[' :: body ++ ']' :: globreSGo fuel r2 group
    else if c = lbrace then S "(?:" ++ globreSGo fuel rest (group + 1)
    else if c = rbrace then
      if group > 0 then ')' :: globreSGo fuel rest (group - 1)
      else escC c ++ globreSGo fuel rest group
    else if c = ',' then
      if group > 0 then '|' :: globreSGo fuel rest group
      else escC c ++ globreSGo fuel rest group
    else if c = '\\' then
      match rest with
      | p :: r2 => escC p ++ globreSGo fuel r2 group
      | [] => escC '\\' ++ globreSGo fuel [] group
    else escC c ++ globreSGo fuel rest group

/-- `_globre` as a string. -/
def globreS (pat : Str) : Str := globreSGo (pat.length + 1) pat 0

/-! ## Per-kind regex emission (`_regex`, match.py lines 542-569) -/

/-- The `(?:/|$)` glob suffix as an AST. -/
def slashOrEnd : RE := .alt (.lit '/') .eos

/-- The `[^/]+$` tail of a `rootfilesin` regex as an AST. -/
def nonSlashPlusEnd : RE :=
  .cat (.cls true [CItem.one '/']) (.cat (.starCls true [CItem.one '/']) .eos)

/-- `_regex` as a string: convert a pattern of any kind into the regex
text the source emits.  The leading `^` of `path`/`rootfilesin` patterns
appears here (it is a no-op under `re.match`, which always anchors at the
start). -/
def regexS (gsS : Str) (k : Kind) (pat : Str) : Str :=
  if pat = [] then []
  else match k with
  | .re => pat
  | .path => if pat = S "." then [] else S "^" ++ escapeS pat ++ S "(?:/|$)"
  | .rootfilesin =>
    S "^" ++ (if pat = S "." then [] else escapeS pat ++ S "/") ++ S "[^/]+$"
  | .relglob => S "(?:|.*/)" ++ globreS pat ++ gsS
  | .relpath => escapeS pat ++ S "(?:/|$)"
  | .relre => if pat.head? = some '^' then pat else S ".*" ++ pat
  | _ => globreS pat ++ gsS

/-- A compiled fragment: either an AST the engine can run, an opaque
regex source string (`re:`/`relre:` patterns, whose semantics is the
abstract `Sem.reSem` below), or an invalid regex (`bad`, the `re.error`
case). -/
inductive Frag where
  | ast (r : RE)
  | raw (p : Str)
  | bad
  deriving DecidableEq, Repr

/-- `_regex` as a fragment for the engine, mirroring `regexS` case by case.
Escaped literals become `litStr`; `(?:/|$)` becomes `slashOrEnd`. -/
def fragOf (gsA : RE) (k : Kind) (pat : Str) : Frag :=
  if pat = [] then .ast .eps
  else match k with
  | .re => .raw pat
  | .path => if pat = S "." then .ast .eps
             else .ast (.cat (litStr pat) slashOrEnd)
  | .rootfilesin =>
    .ast (if pat = S "." then nonSlashPlusEnd
          else .cat (litStr pat) (.cat (.lit '/') nonSlashPlusEnd))
  | .relglob =>
    match globA pat with
    | some g => .ast (.cat (.alt .eps (.cat .starDot (.lit '/'))) (.cat g gsA))
    | none => .bad
  | .relpath => .ast (.cat (litStr pat) slashOrEnd)
  | .relre => if pat.head? = some '^' then .raw pat else .raw (S ".*" ++ pat)
  | _ =>
    match globA pat with
    | some g => .ast (.cat g gsA)
    | none => .bad

/-- Abstract collaborator semantics: `reSem` is Python `re.match`
truthiness for an opaque regex source string on a path; `subM` is the
lazily built sub-matcher of a `subinclude:` pattern, applied to the
prefix-stripped path (its arguments are the `matcherargs` tuple built in
`_expandsubinclude`). -/
structure Sem where
  reSem : Str → Str → Bool
  subM : Str × Str × List Str × List Str → Str → Bool

/-- Is a fragment an invalid regex? -/
def fragIsBad : Frag → Bool
  | .bad => true
  | _ => false

/-- Semantics of one fragment on a path. -/
def fragSem (sem : Sem) (f : Str) : Frag → Bool
  | .ast r => reAccepts r f
  | .raw p => sem.reSem p f
  | .bad => false

/-- The matcher `_buildregexmatch` returns: either a single compiled
alternation of fragments, or the `a(s) or b(s)` combination of two halves
produced by the overflow split. -/
inductive MT where
  | leaf (frs : List Frag)
  | orNode (a b : MT)

/-- Semantics of a built matcher.  A compiled top-level alternation
`(?:f1|f2|...)` matches exactly when one of its alternatives does; this
alternation law is the modelling step for the compiled leaf. -/
def mtSem (sem : Sem) (f : Str) : MT → Bool
  | .leaf frs => frs.any (fragSem sem f)
  | .orNode a b => mtSem sem f a || mtSem sem f b

/-- `_buildregexmatch` (match.py lines 606-635): build the composed regex
string; if it exceeds 20000 characters the pattern list is split in half
and built recursively, the result being the OR of the two halves (with the
full-length regex string still returned).  A singleton that still
overflows re-raises; a leaf whose fragments contain an invalid regex is
the `re.error` → `Abort` path. -/
def brmGo (gsS : Str) (gsA : RE) : Nat → List KindPat → Except Str (Str × MT)
  | 0, _ => .error (S "pattern too large")
  | fuel + 1, kps =>
    let regex := S "(?:" ++ joinChar '|' (kps.map (fun kp => regexS gsS kp.kind kp.pat)) ++ S ")"
    if regex.length > 20000 then
      if kps.length < 2 then .error (S "pattern too large")
      else do
        let (_, a) ← brmGo gsS gsA fuel (kps.take (kps.length / 2))
        let (_, b) ← brmGo gsS gsA fuel (kps.drop (kps.length / 2))
        .ok (regex, .orNode a b)
    else
      let frs := kps.map (fun kp => fragOf gsA kp.kind kp.pat)
      if frs.any fragIsBad then .error (S "invalid pattern")
      else .ok (regex, .leaf frs)

/-- The halving recursion terminates because each half is strictly
shorter; fuel `length + 1` always suffices. -/
def buildregexmatch (gsS : Str) (gsA : RE) (kps : List KindPat) :
    Except Str (Str × MT) :=
  brmGo gsS gsA (kps.length + 1) kps

/-! ## Path helpers

The `util`/`pathutil` path helpers called by match.py are not part of the
sources under review; they are modelled from the spec (sections 4.5, 4.6
and 6), restricted to relative, slash-separated paths. -/

/-- Modelled from the spec: `util.finddirs` — every proper ancestor
directory of a path, from the innermost outwards, not including `.`
(match.py's `_rootsanddirs` doctests show `util.dirs` excludes the root
directory and adds `.` separately). -/
def finddirs (p : Str) : List Str :=
  (((List.range p.length).filter (fun i => p.get? i = some '/')).reverse).map
    (fun i => p.take i)

/-- Modelled from the spec: `util.dirs` — the union of the ancestor
directories of a set of paths (duplicates are irrelevant: the matcher only
tests membership). -/
def dirsOfList (fs : List Str) : List Str := fs.flatMap finddirs

/-- Modelled from the spec: `util.normpath` / `os.path.normpath` on a
relative slash-separated path — collapse `.`/empty components and resolve
`..` against preceding components. -/
def normComps (cs : List Str) : List Str :=
  cs.foldl
    (fun acc c =>
      if c = [] || c = S "." then acc
      else if c = S ".." then
        match acc.getLast? with
        | some l => if l = S ".." then acc ++ [c] else acc.dropLast
        | none => acc ++ [c]
      else acc ++ [c])
    []

/-- Modelled from the spec: `util.normpath` (empty input normalizes to `.`). -/
def normpath (p : Str) : Str :=
  let r := normComps (splitChar '/' p)
  if r = [] then S "." else joinChar '/' r

/-- Modelled from the spec: `pathutil.canonpath` — canonicalize a pattern
against `(root, cwd)`; restricted here to `cwd = root` and relative
patterns, so it normalizes the path and rejects (audits) paths escaping
the root through leading `..`.  `canonpath(root, cwd, '.')` is `''`. -/
def canonpath (_root _cwd pat : Str) : Except Str Str :=
  let r := normComps (splitChar '/' pat)
  if r.head? = some (S "..") then .error (S "path escapes the repository")
  else .ok (joinChar '/' r)

/-- Modelled from the spec: `util.localpath` is the identity on posix. -/
def localpath (p : Str) : Str := p

/-- Modelled from the spec: `os.path.join` for a relative second argument
(`join('', p) = p`). -/
def joinPath (a b : Str) : Str := if a = [] then b else a ++ S "/" ++ b

/-- Modelled from the spec: `pathutil.dirname` — everything before the
last slash (empty when there is none). -/
def dirnameS (p : Str) : Str :=
  match (p.reverse.findIdx? (· = '/')) with
  | some k => p.take (p.length - k - 1)
  | none => []

/-- Modelled from the spec: `pathutil.canonpath(root, root, newroot)` as
used by `_expandsubinclude` — the path of `newroot` relative to `root`. -/
def canonRel (root new : Str) : Str :=
  if new = root then []
  else if (root ++ S "/").isPrefixOf new then new.drop (root.length + 1)
  else new

/-! ## Root and directory extraction (match.py lines 637-711) -/

/-- The non-glob prefix of a glob pattern (`_patternrootsanddirs`, glob
case): the longest leading run of slash-separated components free of
`[`, `{`, `*` and `?`, or `.` when empty. -/
def nonGlobPrefix (pat : Str) : Str :=
  let comps := splitChar '/' pat
  let root := comps.takeWhile
    (fun p => !(p.any (fun c => c = '[' || c = lbrace || c = '*' || c = '?')))
  let j := joinChar '/' root
  if j = [] then S "." else j

/-- `_patternrootsanddirs`: roots and exact directories of each pattern. -/
def patternrootsanddirs (kps : List KindPat) : List Str × List Str :=
  kps.foldr
    (fun kp (rd : List Str × List Str) =>
      match kp.kind with
      | .glob => (nonGlobPrefix kp.pat :: rd.1, rd.2)
      | .relpath => ((if kp.pat = [] then S "." else kp.pat) :: rd.1, rd.2)
      | .path => ((if kp.pat = [] then S "." else kp.pat) :: rd.1, rd.2)
      | .rootfilesin => (rd.1, (if kp.pat = [] then S "." else kp.pat) :: rd.2)
      | _ => (S "." :: rd.1, rd.2))
    ([], [])

/-- `_roots`: the roots component of `_patternrootsanddirs`. -/
def rootsKP (kps : List KindPat) : List Str := (patternrootsanddirs kps).1

/-- `_rootsanddirs`: roots, plus exact dirs extended with all parents of
both lists and the root directory `.`. -/
def rootsanddirs (kps : List KindPat) : List Str × List Str :=
  let (r, d) := patternrootsanddirs kps
  (r, d ++ dirsOfList d ++ dirsOfList r ++ [S "."])

/-- `_explicitfiles`: the roots of the kindpats that can name files
(everything except `rootfilesin`). -/
def explicitfiles (kps : List KindPat) : List Str :=
  rootsKP (kps.filter (fun kp => !(kp.kind = .rootfilesin)))

/-! ## Pattern files (`readpatternfile`, match.py lines 720-788) -/

/-- Length of the run of consecutive backslashes immediately before
position `e`. -/
def bsRunBefore (cs : Str) (e : Nat) : Nat :=
  ((cs.take e).reverse.takeWhile (· = '\\')).length

/-- Position of the first `#` preceded by an even number of backslashes:
the effect of the source's `_commentre` search (a comment marker is a `#`
whose run of immediately preceding backslashes has even length). -/
def findCommentIdx (cs : Str) : Option Nat :=
  (List.range cs.length).find?
    (fun e => cs.get? e = some '#' && bsRunBefore cs e % 2 = 0)

/-- Python `line.replace('\\#', '#')`. -/
def unescapeHash : Str → Str
  | [] => []
  | '\\' :: '#' :: r => '#' :: unescapeHash r
  | c :: r => c :: unescapeHash r

/-- Remove the comment (if any) and unescape `\#`, as the `"#" in line`
branch of `readpatternfile` does. -/
def stripComment (line : Str) : Str :=
  let t := match findCommentIdx line with
           | some e => line.take e
           | none => line
  unescapeHash t

/-- The `syntaxes` table of `readpatternfile`. -/
def synTable : List (Str × Str) :=
  [(S "re", S "relre:"), (S "regexp", S "relre:"), (S "glob", S "relglob:"),
   (S "include", S "include"), (S "subinclude", S "subinclude")]

/-- Dictionary lookup in `syntaxes`. -/
def synLookup (s : Str) : Option Str :=
  (synTable.find? (fun e => e.1 = s)).map (·.2)

/-- Per-line prefix resolution: a line starting with a value of the table
(e.g. `relre:`) or with a key plus colon (e.g. `re:`) carries its own
syntax; otherwise the current default applies. -/
def lineSyntaxGo : List (Str × Str) → Str → Str → Str × Str
  | [], syn, line => (syn, line)
  | (s, rels) :: t, syn, line =>
    if rels.isPrefixOf line then (rels, line.drop rels.length)
    else if (s ++ [':']).isPrefixOf line then (rels, line.drop (s.length + 1))
    else lineSyntaxGo t syn line

/-- The line loop of `readpatternfile`, carrying the current default
syntax; returns the emitted patterns and the warnings. -/
def rpfGo (warnOn : Bool) (fpath : Str) : List Str → Str → List Str × List Str
  | [], _ => ([], [])
  | line :: rest, syn =>
    let line1 := if line.contains '#' then stripComment line else line
    let line2 := rstrip line1
    if line2 = [] then rpfGo warnOn fpath rest syn
    else if (S "syntax:").isPrefixOf line2 then
      let s := stripBoth (line2.drop 7)
      match synLookup s with
      | some newSyn => rpfGo warnOn fpath rest newSyn
      | none =>
        let (ps, ws) := rpfGo warnOn fpath rest syn
        (ps, (if warnOn
              then [fpath ++ S ": ignoring invalid syntax '" ++ s ++ S "'\n"]
              else []) ++ ws)
    else
      let (lsyn, body) := lineSyntaxGo synTable syn line2
      let (ps, ws) := rpfGo warnOn fpath rest syn
      ((lsyn ++ body) :: ps, ws)

/-- `readpatternfile` on the contents of a pattern file (the file is read
by the caller in this model; `sourceinfo` is not modelled).  The initial
default syntax is `relre:`. -/
def readpatternfile (fpath content : Str) (warnOn : Bool) : List Str × List Str :=
  rpfGo warnOn fpath (splitChar '\n' content) (S "relre:")

/-! ## Normalization (`_donormalize`, match.py lines 160-199)

The file system is a partial map from names to contents (modelling
`util.readfile`/`open`; an absent name is the `IOError`/`EnvironmentError`
case).  The recursion through `listfile`/`include` files is bounded by an
explicit fuel (the source recurses unboundedly); running out of fuel is an
error, which no theorem below depends on except as a stand-in for a
nested normalization failure.  Warnings are collected in a list; the
`warnOn` flag models whether a `warn` callback was supplied. -/

/-- A file system: file name to contents. -/
abbrev FS := Str → Option Str

/-- One pattern's branch of `_donormalize`: `recur` is the recursive
normalization used for the contents of `listfile`/`include` files. -/
def donormStep (fs : FS) (warnOn : Bool)
    (recur : List Str → Kind → Str → Str → Except Str (List KindPat × List Str))
    (k : Kind) (pat0 : Str) (dk : Kind) (root cwd : Str) :
    Except Str (List KindPat × List Str) :=
  if k = .glob || k = .relpath then
    (canonpath root cwd pat0).map (fun cp => ([⟨k, cp, []⟩], []))
  else if k = .relglob || k = .path || k = .rootfilesin then
    .ok ([⟨k, normpath pat0, []⟩], [])
  else if k = .listfile || k = .listfile0 then
    match fs pat0 with
    | none => .error (S "unable to read file list (" ++ pat0 ++ S ")")
    | some content =>
      let files := ((if k = .listfile0 then splitChar '\x00' content
                     else splitChar '\n' content).filter (· ≠ []))
      (recur files dk root cwd).map
        (fun r => (r.1.map (fun kp => ⟨kp.kind, kp.pat, pat0⟩), r.2))
  else if k = .incl then
    let fullpath := joinPath root (localpath pat0)
    match fs fullpath with
    | none =>
      .ok ([], if warnOn
               then [S "skipping unreadable pattern file '" ++ pat0 ++ S "'\n"]
               else [])
    | some content =>
      let rp := readpatternfile fullpath content warnOn
      match recur rp.1 dk root cwd with
      | .error e => .error (pat0 ++ S ": " ++ e)
      | .ok r =>
        .ok (r.1.map
              (fun kp => ⟨kp.kind, kp.pat, if kp.src = [] then pat0 else kp.src⟩),
             rp.2 ++ r.2)
  else .ok ([⟨k, pat0, []⟩], [])

/-- The pattern-list loop of `_donormalize`, accumulating kindpats and
warnings in order. -/
def donormGo (fs : FS) (warnOn : Bool)
    (recur : List Str → Kind → Str → Str → Except Str (List KindPat × List Str)) :
    List Str → Kind → Str → Str → Except Str (List KindPat × List Str)
  | [], _, _, _ => .ok ([], [])
  | p :: rest, dk, root, cwd => do
    let (k, pat0) := patsplit p dk
    let (k1, w1) ← donormStep fs warnOn recur k pat0 dk root cwd
    let (k2, w2) ← donormGo fs warnOn recur rest dk root cwd
    .ok (k1 ++ k2, w1 ++ w2)

/-- `_donormalize`: convert raw patterns to normalized kindpat triples,
expanding `listfile`/`listfile0` (fatal `Abort` when unreadable) and
`include` files (warning and skip when unreadable; a nested `Abort` is
re-raised with the include pattern prefixed).  The recursion through file
contents is bounded by fuel (the source recurses unboundedly). -/
def donorm (fs : FS) (warnOn : Bool) :
    Nat → List Str → Kind → Str → Str → Except Str (List KindPat × List Str)
  | 0, _, _, _, _ => .error (S "recursion limit reached")
  | fuel + 1, ps, dk, root, cwd =>
    donormGo fs warnOn (donorm fs warnOn fuel) ps dk root cwd

/-! ## Match-function building (`_buildmatch`, match.py lines 571-604) -/

/-- The fileset collaborator (`ctx`): `getfileset` resolves a fileset
expression to paths, `substate` and `subGetfileset` model sub-repositories
for `listsubrepos`.  Modelled from the spec (section 6): the fileset
evaluator is an external collaborator. -/
structure Ctx where
  getfileset : Str → List Str
  substate : List Str
  subGetfileset : Str → Str → List Str

/-- `_expandsets`: expand `set:` patterns to an explicit path set, keeping
the other kindpats; a `set:` pattern without a context is a fatal abort. -/
def expandsets (ctx : Option Ctx) (listsubrepos : Bool) (kps : List KindPat) :
    Except Str (List Str × List KindPat) :=
  kps.foldr
    (fun kp acc => do
      let (fset, other) ← acc
      if kp.kind = .set then
        match ctx with
        | none => .error (S "fileset expression with no context")
        | some c =>
          let s := c.getfileset kp.pat
          let subs := if listsubrepos
            then c.substate.flatMap
              (fun sp => (c.subGetfileset sp kp.pat).map (fun f => sp ++ S "/" ++ f))
            else []
          .ok (s ++ subs ++ fset, other)
      else .ok (fset, kp :: other))
    (.ok ([], []))

/-- One recorded `subinclude:` pattern: the path prefix it applies under
and the `matcherargs` tuple `(newroot, '', [], ['include:path'])` of the
inner matcher. -/
structure SubIncl where
  pfx : Str
  args : Str × Str × List Str × List Str
  deriving DecidableEq, Repr

/-- `_expandsubinclude` (match.py lines 54-76): split out `subinclude`
kindpats, computing for each the relative prefix and inner matcher
arguments. -/
def expandsubinclude (kps : List KindPat) (root : Str) : List SubIncl × List KindPat :=
  kps.foldr
    (fun kp (acc : List SubIncl × List KindPat) =>
      if kp.kind = .subincl then
        let sourceroot := dirnameS (normpath kp.src)
        let pat := localpath kp.pat
        let path := joinPath sourceroot pat
        let newroot := dirnameS path
        let matcherargs := (newroot, ([] : Str), ([] : List Str),
                           [S "include:" ++ path])
        let pfx0 := canonRel root newroot
        let pfx := if pfx0 = [] then pfx0 else pfx0 ++ S "/"
        (⟨pfx, matcherargs⟩ :: acc.1, acc.2)
      else (acc.1, kp :: acc.2))
    ([], [])

/-- The result of `_buildmatch`: the subinclude entries, the expanded
fileset, and the compiled regex matcher when there were kindpats left. -/
structure BM where
  subs : List SubIncl
  fset : List Str
  frags : Option MT

/-- Semantics of a `_buildmatch` result: the OR of the subinclude match
function, fileset membership, and the compiled regex (each present only
when built, exactly as the `matchfuncs` list is assembled). -/
def bmSem (sem : Sem) (bm : BM) (f : Str) : Bool :=
  (bm.subs.any (fun si =>
      si.pfx.isPrefixOf f && sem.subM si.args (f.drop si.pfx.length)))
  || bm.fset.contains f
  || (match bm.frags with
      | some mt => mtSem sem f mt
      | none => false)

/-- `_buildmatch`: expand subincludes and filesets, then compile the
remaining kindpats into a regex matcher.  Returns the regex string and
the combined matcher data. -/
def buildmatch (ctx : Option Ctx) (listsubrepos : Bool) (kps : List KindPat)
    (gsS : Str) (gsA : RE) (root : Str) : Except Str (Str × BM) := do
  let (subs, kps1) := expandsubinclude kps root
  let (fset, kps2) ← expandsets ctx listsubrepos kps1
  if kps2.isEmpty then .ok ([], ⟨subs, fset, none⟩)
  else do
    let (rx, mt) ← buildregexmatch gsS gsA kps2
    .ok (rx, ⟨subs, fset, some mt⟩)

/-! ## The matcher object (match.py lines 201-376) -/

/-- The result type of `visitdir`: `False`, `True` or `'all'`. -/
inductive Vis where
  | vfalse | vtrue | vall
  deriving DecidableEq, Repr

/-- One entry of the `matchfns` list.  `exactM` is the bound method
`self.exact` (membership in the file set); the include entry is the bare
predicate and the exclude entry its negation (`lambda f: not em(f)`). -/
inductive MFn where
  | exactM
  | predM (bm : BM)
  | notM (bm : BM)

/-- The matcher object's state after `__init__`. -/
structure Matcher where
  files : List Str
  anypatsB : Bool
  alwaysB : Bool
  pathrestricted : Bool
  includeroots : List Str
  includedirs : List Str
  excluderoots : List Str
  mfns : List MFn

/-- Evaluate one `matchfns` entry. -/
def evalMFn (sem : Sem) (files : List Str) (f : Str) : MFn → Bool
  | .exactM => files.contains f
  | .predM bm => bmSem sem bm f
  | .notM bm => !(bmSem sem bm f)

/-- `matchfn` / `__call__`: `util.always` when no match functions were
installed, otherwise the conjunction of the installed functions. -/
def Matcher.matches (m : Matcher) (sem : Sem) (f : Str) : Bool :=
  match m.mfns with
  | [] => true
  | ms => ms.all (evalMFn sem m.files f)

/-- `exact(f)`: membership in the file set. -/
def Matcher.exactFn (m : Matcher) (f : Str) : Bool := m.files.contains f

/-- `anypats()`. -/
def Matcher.anypats (m : Matcher) : Bool := m.anypatsB

/-- `always()`. -/
def Matcher.always (m : Matcher) : Bool := m.alwaysB

/-- `isexact()`: `self.matchfn == self.exact`, which holds exactly when the
`matchfns` list was the singleton `[self.exact]` (a composite closure or
`util.always` never compares equal to the bound method). -/
def Matcher.isexactB (m : Matcher) : Bool :=
  match m.mfns with
  | [MFn.exactM] => true
  | _ => false

/-- `prefix()`. -/
def Matcher.prefixQ (m : Matcher) : Bool :=
  !m.alwaysB && !m.isexactB && !m.anypatsB

/-- `_dirs`: the ancestor directories of the file set, plus `.`. -/
def Matcher.dirsF (m : Matcher) : List Str := dirsOfList m.files ++ [S "."]

/-- `visitdir` (match.py lines 329-357). -/
def Matcher.visitdir (m : Matcher) (dir : Str) : Vis :=
  if m.prefixQ && m.files.contains dir then .vall
  else if m.excluderoots.contains dir then .vfalse
  else if (!m.includeroots.isEmpty || !m.includedirs.isEmpty)
       && !(m.includeroots.contains (S "."))
       && !(m.includeroots.contains dir)
       && !(m.includedirs.contains dir)
       && !((finddirs dir).any m.includeroots.contains) then .vfalse
  else if m.files.isEmpty || m.files.contains (S ".") || m.files.contains dir
       || m.dirsF.contains dir || (finddirs dir).any m.files.contains then .vtrue
  else .vfalse

/-- The outcome of the `exact`/`patterns` branch of `__init__`. -/
inductive PP where
  | nonePP
  | exactPP
  | regexPP (kps : List KindPat) (bm : BM)

/-- Assemble the matcher state from the per-branch results, exactly as
`__init__` does: the include entry, then the exclude entry, then the
exact method or the pattern regex. -/
def assemble (patterns incl excl : List Str) (iP eP : Option (List KindPat × BM))
    (pP : PP) : Matcher :=
  let ird := match iP with
             | some (kps, _) => rootsanddirs kps
             | none => ([], [])
  let eroots := match eP with
                | some (kps, _) => if !(anypatsKP kps) then rootsKP kps else []
                | none => []
  let mf1 : List MFn := match iP with
                        | some (_, bm) => [.predM bm]
                        | none => []
  let mf2 : List MFn := match eP with
                        | some (_, bm) => [.notM bm]
                        | none => []
  let fp3 : List Str × Bool × List MFn :=
    match pP with
    | .exactPP => (patterns, false, [.exactM])
    | .nonePP => ([], false, [])
    | .regexPP kps bm => (explicitfiles kps, anypatsKP kps, [.predM bm])
  let mfns := mf1 ++ mf2 ++ fp3.2.2
  { files := fp3.1
    anypatsB := (!incl.isEmpty || !excl.isEmpty) || fp3.2.1
    alwaysB := mfns.isEmpty
    pathrestricted := !incl.isEmpty || !excl.isEmpty || !patterns.isEmpty
    includeroots := ird.1
    includedirs := ird.2
    excluderoots := eroots
    mfns := mfns }

/-- The `if include:` / `if exclude:` branch of `__init__`: normalize the
pattern list (with default kind `glob`) and build its match function with
the `(?:/|$)` glob suffix; an empty list contributes nothing. -/
def inclStage (ctx : Option Ctx) (listsubrepos : Bool)
    (normalize : List Str → Kind → Except Str (List KindPat))
    (root : Str) (pats : List Str) :
    Except Str (Option (List KindPat × BM)) :=
  if pats.isEmpty then pure none
  else do
    let kps ← normalize pats Kind.glob
    let (_, bm) ← buildmatch ctx listsubrepos kps (S "(?:/|$)") slashOrEnd root
    pure (some (kps, bm))

/-- The `if exact: ... elif patterns:` branch of `__init__`: exact mode
takes the file list verbatim; otherwise non-empty patterns that do not
always match are normalized and compiled with the `$` suffix. -/
def patStage (ctx : Option Ctx) (listsubrepos : Bool)
    (normalize : List Str → Kind → Except Str (List KindPat))
    (root : Str) (patterns : List Str) (dk : Kind) (exactF : Bool) :
    Except Str PP :=
  if exactF then pure PP.exactPP
  else if patterns.isEmpty then pure PP.nonePP
  else do
    let kps ← normalize patterns dk
    if kindpatsalwaysmatch kps then pure PP.nonePP
    else do
      let (_, bm) ← buildmatch ctx listsubrepos kps (S "$") RE.eos root
      pure (PP.regexPP kps bm)

/-- `matcher.__init__` (match.py lines 203-275): normalize and build the
include, exclude and pattern match functions and the root/dir sets.
`normalize` is the normalization function passed in by `match()`. -/
def mkMatcher (ctx : Option Ctx) (listsubrepos : Bool)
    (normalize : List Str → Kind → Except Str (List KindPat))
    (root : Str) (patterns incl excl : List Str) (dk : Kind)
    (exactF : Bool) : Except Str Matcher := do
  let iP ← inclStage ctx listsubrepos normalize root incl
  let eP ← inclStage ctx listsubrepos normalize root excl
  let pP ← patStage ctx listsubrepos normalize root patterns dk exactF
  pure (assemble patterns incl excl iP eP pP)

/-! ## The subdir matcher (match.py lines 378-447) -/

/-- `subdirmatcher` state after `__init__`: the parent matcher, the
subdirectory path, the re-rooted file list, and the recomputed
`_always`/`_anypats` flags. -/
structure SubdirM where
  parent : Matcher
  spath : Str
  files : List Str
  alwaysB : Bool
  anypatsB : Bool

/-- `subdirmatcher.__init__`. -/
def mkSubdir (path : Str) (m : Matcher) : SubdirM :=
  { parent := m
    spath := path
    files := (m.files.filter (fun f => (path ++ S "/").isPrefixOf f)).map
               (fun f => f.drop (path.length + 1))
    alwaysB := if m.prefixQ then m.files.any (fun f => f = path) else m.alwaysB
    anypatsB := m.anypatsB }

/-- The subdir matcher's `matchfn`: the parent's match function on the
path with the subdirectory prefix restored. -/
def SubdirM.matches (sm : SubdirM) (sem : Sem) (f : Str) : Bool :=
  sm.parent.matches sem (sm.spath ++ S "/" ++ f)

/-- `subdirmatcher.visitdir`: `.` maps to the subdirectory itself,
everything else gets the prefix prepended. -/
def SubdirM.visitdir (sm : SubdirM) (dir : Str) : Vis :=
  sm.parent.visitdir (if dir = S "." then sm.spath else sm.spath ++ S "/" ++ dir)

/-! ## Concrete instances used in the theorems -/

/-- An empty file system (every read fails). -/
def noFS : FS := fun _ => none

/-- The `normalize` argument `match()` passes to the matcher constructor:
`_donormalize` over a given file system (with ample fuel). -/
def stdNorm (fs : FS) (root cwd : Str) :
    List Str → Kind → Except Str (List KindPat) :=
  fun ps dk => (donorm fs true 100 ps dk root cwd).map Prod.fst

/-- A default matcher value, used only to extract from `Except`. -/
def emptyM : Matcher :=
  { files := [], anypatsB := false, alwaysB := false, pathrestricted := false
    includeroots := [], includedirs := [], excluderoots := [], mfns := [] }

/-- Extract the matcher from a successful construction. -/
def getM (e : Except Str Matcher) : Matcher :=
  match e with
  | .ok m => m
  | .error _ => emptyM

/-- A concrete semantics for the abstract collaborators (no opaque regex
matches, no subinclude matches): enough for matchers whose patterns are
all structured kinds. -/
def semF : Sem := ⟨fun _ _ => false, fun _ _ => false⟩

/-- A concrete opaque-regex semantics used by witnesses: the regex source
matches exactly the identical string. -/
def semEq : Sem := ⟨fun p f => p == f, fun _ _ => false⟩

/-- The matcher of `match(root, cwd, ['rootfilesin:d', 'path:x'])`. -/
def c1m : Matcher :=
  getM (mkMatcher none false (stdNorm noFS (S "") (S "")) (S "")
    [S "rootfilesin:d", S "path:x"] [] [] Kind.glob false)

/-- The matcher of `match(root, cwd, [])` (the always matcher). -/
def cAlw : Matcher :=
  getM (mkMatcher none false (stdNorm noFS (S "") (S "")) (S "")
    [] [] [] Kind.glob false)

/-- The matcher of `match(root, cwd, [], exclude=['**'])`. -/
def c4m : Matcher :=
  getM (mkMatcher none false (stdNorm noFS (S "") (S "")) (S "")
    [] [] [S "**"] Kind.glob false)

/-- The matcher of `match(root, cwd, ['a', 'b/c'], exact=True)`. -/
def c5m : Matcher :=
  getM (mkMatcher none false (stdNorm noFS (S "") (S "")) (S "")
    [S "a", S "b/c"] [] [] Kind.glob true)

/-- The matcher of `match(root, cwd, ['a'], include=['glob:*.c'], exact=True)`. -/
def c6m : Matcher :=
  getM (mkMatcher none false (stdNorm noFS (S "") (S "")) (S "")
    [S "a"] [S "glob:*.c"] [] Kind.glob true)

/-- The matcher of `match(root, cwd, ['path:sub', 'path:sub/x'])`: a
prefix matcher whose files contain both `sub` and a path under it. -/
def c10m : Matcher :=
  getM (mkMatcher none false (stdNorm noFS (S "") (S "")) (S "")
    [S "path:sub", S "path:sub/x"] [] [] Kind.glob false)

/-! ## Helper lemmas -/

/-- A matcher with no files, no exclude roots and no include roots or dirs
visits every directory (`visitdir` falls through to the final clause,
whose first disjunct `not self._fileset` holds). -/
theorem visitdir_of_trivial (m : Matcher) (h1 : m.files = [])
    (h2 : m.excluderoots = []) (h3 : m.includeroots = [])
    (h4 : m.includedirs = []) (d : Str) : m.visitdir d = Vis.vtrue := by
  simp [Matcher.visitdir, h1, h2, h3, h4]

/-! ## Claims -/

/-- C1: the pruning contract `matches(p) → every ancestor d of p has a
truthy visit_dir(d)` fails on the code: for the matcher built from
`patterns = ['rootfilesin:d', 'path:x']`, the path `d/f` matches, its only
proper ancestor directory is `d`, and `visitdir('d')` is `False`
(`_explicitfiles` drops `rootfilesin` roots from the file list, and
`visitdir`'s final clause only consults the file list).  This contradicts
the `visitdir` docstring, which promises a decision "based on whether it
has potential matches in it or one of its subdirectories". -/
theorem c1_pruning_contract_violation :
    c1m.matches semF (S "d/f") = true ∧
    finddirs (S "d/f") = [S "d"] ∧
    c1m.visitdir (S "d") = Vis.vfalse := by
  exact ⟨rfl, rfl, rfl⟩

/-- C4 (counterexample): on the matcher built from `exclude=['**']` (and no
includes), `visit_dir('a')` is `True`, not `false` as claimed: `'**'` is a
glob, so `_anypats` is true and `_excluderoots` is never populated. -/
theorem c4_exclude_star_counterexample :
    c4m.visitdir (S "a") = Vis.vtrue ∧
    c4m.excluderoots = [] ∧
    Vis.vtrue ≠ Vis.vfalse := by
  exact ⟨rfl, rfl, by decide⟩

/-- C4 (amended): a matcher built with `exclude=['**']` and no includes or
patterns records no exclude roots and `visit_dir` returns `True` for every
directory (the exclude only affects `matches`, which the exclude regex
makes false everywhere). -/
theorem c4_exclude_star_amended :
    ∀ d : Str, c4m.visitdir d = Vis.vtrue := by
  intro d
  exact visitdir_of_trivial c4m rfl rfl rfl rfl d

/-- C5 (counterexample): on the exact matcher over `['a', 'b/c']`,
`visit_dir('b/c')` is `True`, not `'all'` as claimed: an exact matcher has
`prefix() = False` (`isexact()` holds), so the `'all'` branch of
`visitdir` is unreachable. -/
theorem c5_exact_counterexample :
    c5m.isexactB = true ∧
    c5m.visitdir (S "b/c") = Vis.vtrue ∧
    Vis.vtrue ≠ Vis.vall := by
  exact ⟨rfl, rfl, by decide⟩

/-- C5 (amended): the exact matcher over `['a', 'b/c']` matches exactly
`a` and `b/c` (not `b/d`), with `visit_dir('b') = True` and
`visit_dir('b/c') = True` (not `'all'`). -/
theorem c5_exact_amended :
    ∀ sem : Sem,
      c5m.matches sem (S "a") = true ∧
      c5m.matches sem (S "b/c") = true ∧
      c5m.matches sem (S "b/d") = false ∧
      c5m.visitdir (S "b") = Vis.vtrue ∧
      c5m.visitdir (S "b/c") = Vis.vtrue := by
  intro sem
  exact ⟨rfl, rfl, rfl, rfl, rfl⟩

/-- C9: reading a pattern file starts with default kind `relre`; a
`syntax: glob` line switches the default so that a following unprefixed
`*.c` is emitted as `relglob:*.c` (the same pattern a literal
`relglob:*.c` line yields); an unrecognized syntax name produces a warning
and leaves the default unchanged. -/
theorem c9_patternfile_syntax :
    (readpatternfile (S "f") (S "syntax: glob\n*.c") true).1 = [S "relglob:*.c"] ∧
    (readpatternfile (S "f") (S "relglob:*.c") true).1 = [S "relglob:*.c"] ∧
    (readpatternfile (S "f") (S "*.c") true).1 = [S "relre:*.c"] ∧
    readpatternfile (S "f") (S "syntax: bogus\n*.c") true
      = ([S "relre:*.c"], [S "f: ignoring invalid syntax 'bogus'\n"]) := by
  exact ⟨rfl, rfl, rfl, rfl⟩

/-- C7: the subdir matcher round-trip — for every parent matcher `M`,
prefix `P` and path `f`, `subdir(P, M).matches(f) = M.matches(P ++ "/" ++ f)`,
and its `visit_dir(d)` equals `M.visit_dir(P ++ "/" ++ d)` for `d ≠ "."`,
with `d = "."` mapped to `P` itself. -/
theorem c7_subdir_roundtrip :
    ∀ (m : Matcher) (p : Str) (sem : Sem) (f d : Str),
      (mkSubdir p m).matches sem f = m.matches sem (p ++ S "/" ++ f) ∧
      (d ≠ S "." → (mkSubdir p m).visitdir d = m.visitdir (p ++ S "/" ++ d)) ∧
      (mkSubdir p m).visitdir (S ".") = m.visitdir p := by
  intro m p sem f d
  refine ⟨rfl, ?_, ?_⟩
  · intro hd
    simp only [SubdirM.visitdir, mkSubdir]
    rw [if_neg hd]
  · simp [SubdirM.visitdir, mkSubdir]

/-- C7 witness: the round-trip at the concrete prefix matcher `c10m`,
subdirectory `sub`, path `x` and directory `q`. -/
theorem c7_subdir_roundtrip_witness :
    (mkSubdir (S "sub") c10m).matches semF (S "x")
      = c10m.matches semF (S "sub" ++ S "/" ++ S "x") ∧
    (mkSubdir (S "sub") c10m).visitdir (S "q")
      = c10m.visitdir (S "sub" ++ S "/" ++ S "q") ∧
    (mkSubdir (S "sub") c10m).visitdir (S ".") = c10m.visitdir (S "sub") := by
  have h := c7_subdir_roundtrip c10m (S "sub") semF (S "x") (S "q")
  exact ⟨h.1, h.2.1 (by decide), h.2.2⟩

/-- C10: when the parent matcher is a prefix matcher and the subdirectory
path is one of its files, the subdir matcher reports `always() = True`;
concretely, the subdir matcher of `sub` over `match(['path:sub',
'path:sub/x'])` has `always() = True` while its `files()` is the
non-empty `['x']` — so `always()` with non-empty `files()` is reachable. -/
theorem c10_subdir_always_with_files :
    (∀ (m : Matcher) (p : Str),
       m.prefixQ = true → m.files.any (fun f => f = p) = true →
       (mkSubdir p m).alwaysB = true) ∧
    c10m.prefixQ = true ∧
    (mkSubdir (S "sub") c10m).alwaysB = true ∧
    (mkSubdir (S "sub") c10m).files = [S "x"] := by
  refine ⟨?_, rfl, rfl, rfl⟩
  intro m p h1 h2
  simp only [mkSubdir, h1, if_true]
  exact h2

/-- C10 witness: the quantified part applied at the concrete matcher. -/
theorem c10_subdir_always_witness :
    (mkSubdir (S "sub") c10m).alwaysB = true :=
  c10_subdir_always_with_files.1 c10m (S "sub") rfl rfl

/-- Inversion of a successful construction: the matcher is the assembly of
successful stage results. -/
theorem mkMatcher_shape {ctx lsr nor root pats incl excl dk ex m}
    (h : mkMatcher ctx lsr nor root pats incl excl dk ex = .ok m) :
    ∃ iP eP pP,
      inclStage ctx lsr nor root incl = .ok iP ∧
      inclStage ctx lsr nor root excl = .ok eP ∧
      patStage ctx lsr nor root pats dk ex = .ok pP ∧
      m = assemble pats incl excl iP eP pP := by
  unfold mkMatcher at h
  cases hi : inclStage ctx lsr nor root incl with
  | error e => rw [hi] at h; simp [Bind.bind, Except.bind] at h
  | ok iP =>
    rw [hi] at h
    cases he : inclStage ctx lsr nor root excl with
    | error e => rw [he] at h; simp [Bind.bind, Except.bind] at h
    | ok eP =>
      rw [he] at h
      cases hp : patStage ctx lsr nor root pats dk ex with
      | error e => rw [hp] at h; simp [Bind.bind, Except.bind] at h
      | ok pP =>
        rw [hp] at h
        simp only [Bind.bind, Except.bind, pure, Except.pure, Except.ok.injEq] at h
        exact ⟨iP, eP, pP, rfl, rfl, rfl, h.symm⟩

/-- The include/exclude stage of an empty list yields nothing. -/
theorem inclStage_nil {ctx lsr nor root iP}
    (h : inclStage ctx lsr nor root [] = .ok iP) : iP = none := by
  simp only [inclStage, List.isEmpty_nil, if_true, pure, Except.pure,
    Except.ok.injEq] at h
  exact h.symm

/-- The include/exclude stage of a non-empty list yields a built entry. -/
theorem inclStage_cons {ctx lsr nor root p ps iP}
    (h : inclStage ctx lsr nor root (p :: ps) = .ok iP) :
    ∃ kps bm, iP = some (kps, bm) := by
  simp only [inclStage, List.isEmpty_cons, if_false, Bool.false_eq_true] at h
  cases h1 : nor (p :: ps) Kind.glob with
  | error e => rw [h1] at h; simp [Bind.bind, Except.bind] at h
  | ok kps =>
    rw [h1] at h
    cases h2 : buildmatch ctx lsr kps (S "(?:/|$)") slashOrEnd root with
    | error e => simp [Bind.bind, Except.bind, h2] at h
    | ok rb =>
      simp only [Bind.bind, Except.bind, h2, pure, Except.pure,
        Except.ok.injEq] at h
      exact ⟨kps, rb.2, h.symm⟩

/-- In exact mode the pattern stage is the exact marker. -/
theorem patStage_exact {ctx lsr nor root pats dk pP}
    (h : patStage ctx lsr nor root pats dk true = .ok pP) :
    pP = PP.exactPP := by
  simp only [patStage, if_true, pure, Except.pure, Except.ok.injEq] at h
  exact h.symm

/-- Outside exact mode the pattern stage never yields the exact marker. -/
theorem patStage_not_exact {ctx lsr nor root pats dk pP}
    (h : patStage ctx lsr nor root pats dk false = .ok pP) :
    pP ≠ PP.exactPP := by
  simp only [patStage, if_false, Bool.false_eq_true] at h
  split at h
  · simp only [pure, Except.pure, Except.ok.injEq] at h
    rw [← h]; intro hc; cases hc
  · cases h1 : nor pats dk with
    | error e => rw [h1] at h; simp [Bind.bind, Except.bind] at h
    | ok kps =>
      rw [h1] at h
      simp only [Bind.bind, Except.bind] at h
      split at h
      · simp only [pure, Except.pure, Except.ok.injEq] at h
        rw [← h]; intro hc; cases hc
      · cases h3 : buildmatch ctx lsr kps (S "$") RE.eos root with
        | error e => rw [h3] at h; simp [Bind.bind, Except.bind] at h
        | ok rb =>
          rw [h3] at h
          simp only [Bind.bind, Except.bind, pure, Except.pure,
            Except.ok.injEq] at h
          rw [← h]; intro hc; cases hc

/-- C3 (counterexample): the always matcher (built from empty patterns,
include and exclude) has `always() = True`, empty `files()` and an
always-true match function, yet `visit_dir('a')` is `True`, not `'all'`
as the claim's right-hand side requires: the claimed equivalence fails. -/
theorem c3_always_counterexample :
    cAlw.alwaysB = true ∧
    cAlw.files = [] ∧
    cAlw.matches semF (S "a") = true ∧
    cAlw.visitdir (S "a") = Vis.vtrue ∧
    Vis.vtrue ≠ Vis.vall := by
  exact ⟨rfl, rfl, rfl, rfl, by decide⟩

/-- C3 (amended): `always()` implies that `files()` is empty, that every
path matches, and that `visit_dir` returns `True` (not `'all'`) on every
directory. -/
theorem c3_always_amended :
    ∀ (ctx : Option Ctx) (lsr : Bool)
      (nor : List Str → Kind → Except Str (List KindPat))
      (root : Str) (pats incl excl : List Str) (dk : Kind) (ex : Bool)
      (m : Matcher),
      mkMatcher ctx lsr nor root pats incl excl dk ex = .ok m →
      m.alwaysB = true →
      m.files = [] ∧ (∀ sem f, m.matches sem f = true) ∧
      (∀ d, m.visitdir d = Vis.vtrue) := by
  intro ctx lsr nor root pats incl excl dk ex m h halways
  obtain ⟨iP, eP, pP, hi, he, hp, hm⟩ := mkMatcher_shape h
  subst hm
  cases iP with
  | some v => simp [assemble, Matcher.alwaysB] at halways
  | none =>
  cases eP with
  | some v => simp [assemble, Matcher.alwaysB] at halways
  | none =>
  cases pP with
  | exactPP => simp [assemble, Matcher.alwaysB] at halways
  | regexPP kps bm => simp [assemble, Matcher.alwaysB] at halways
  | nonePP =>
    refine ⟨rfl, fun sem f => rfl, fun d => ?_⟩
    exact visitdir_of_trivial _ rfl rfl rfl rfl d

/-- C3 witness: the amended implication at the concrete always matcher. -/
theorem c3_always_amended_witness :
    cAlw.files = [] ∧ cAlw.matches semF (S "q") = true ∧
    cAlw.visitdir (S "q") = Vis.vtrue := by
  have h := c3_always_amended none false (stdNorm noFS (S "") (S "")) (S "")
    [] [] [] Kind.glob false cAlw rfl rfl
  exact ⟨h.1, h.2.1 semF (S "q"), h.2.2 (S "q")⟩

/-- C6 (counterexample): a matcher built in exact mode but with an
include pattern has `is_exact() = False`: the `matchfns` list then has two
entries, so `matchfn` is the composite closure, which is not the bound
method `self.exact`. -/
theorem c6_isexact_counterexample :
    mkMatcher none false (stdNorm noFS (S "") (S "")) (S "")
      [S "a"] [S "glob:*.c"] [] Kind.glob true = .ok c6m ∧
    c6m.isexactB = false := by
  exact ⟨rfl, rfl⟩

/-- C6 (amended): `is_exact()` is true exactly when the matcher was built
in exact mode with no include and no exclude patterns. -/
theorem c6_isexact_amended :
    ∀ (ctx : Option Ctx) (lsr : Bool)
      (nor : List Str → Kind → Except Str (List KindPat))
      (root : Str) (pats incl excl : List Str) (dk : Kind) (ex : Bool)
      (m : Matcher),
      mkMatcher ctx lsr nor root pats incl excl dk ex = .ok m →
      m.isexactB = (ex && incl.isEmpty && excl.isEmpty) := by
  intro ctx lsr nor root pats incl excl dk ex m h
  obtain ⟨iP, eP, pP, hi, he, hp, hm⟩ := mkMatcher_shape h
  subst hm
  cases incl with
  | cons p ps =>
    obtain ⟨kps, bm, hv⟩ := inclStage_cons hi
    subst hv
    simp [assemble, Matcher.isexactB]
  | nil =>
    have hiP := inclStage_nil hi
    subst hiP
    cases excl with
    | cons p ps =>
      obtain ⟨kps, bm, hv⟩ := inclStage_cons he
      subst hv
      simp [assemble, Matcher.isexactB]
    | nil =>
      have heP := inclStage_nil he
      subst heP
      cases ex with
      | true =>
        have hpP := patStage_exact hp
        subst hpP
        simp [assemble, Matcher.isexactB]
      | false =>
        have hne := patStage_not_exact hp
        cases pP with
        | exactPP => exact absurd rfl hne
        | nonePP => simp [assemble, Matcher.isexactB]
        | regexPP kps bm => simp [assemble, Matcher.isexactB]

/-- C6 witness: the amended equivalence at the concrete exact-plus-include
matcher. -/
theorem c6_isexact_amended_witness :
    c6m.isexactB = (true && ([S "glob:*.c"] : List Str).isEmpty
                    && ([] : List Str).isEmpty) := by
  exact c6_isexact_amended none false (stdNorm noFS (S "") (S "")) (S "")
    [S "a"] [S "glob:*.c"] [] Kind.glob true c6m rfl

/-- Mapping before `any` composes the predicate. -/
theorem any_map_comp {α β : Type} (l : List α) (g : α → β) (p : β → Bool) :
    (l.map g).any p = l.any (fun x => p (g x)) := by
  induction l with
  | nil => rfl
  | cons a t ih => simp [ih]

/-- The split recursion preserves semantics: whatever splitting happened,
a successful build matches exactly when some fragment of the full pattern
list matches. -/
theorem brmGo_equiv :
    ∀ (fuel : Nat) (gsS : Str) (gsA : RE) (kps : List KindPat) (r : Str) (mt : MT),
      brmGo gsS gsA fuel kps = .ok (r, mt) →
      ∀ (sem : Sem) (f : Str),
        mtSem sem f mt
          = kps.any (fun kp => fragSem sem f (fragOf gsA kp.kind kp.pat)) := by
  intro fuel
  induction fuel with
  | zero => intro gsS gsA kps r mt h; simp [brmGo] at h
  | succ n ih =>
    intro gsS gsA kps r mt h sem f
    simp only [brmGo] at h
    split at h
    · split at h
      · cases h
      · cases h1 : brmGo gsS gsA n (kps.take (kps.length / 2)) with
        | error e => rw [h1] at h; simp [Bind.bind, Except.bind] at h
        | ok ra =>
          rw [h1] at h
          cases h2 : brmGo gsS gsA n (kps.drop (kps.length / 2)) with
          | error e => rw [h2] at h; simp [Bind.bind, Except.bind] at h
          | ok rb =>
            rw [h2] at h
            simp only [Bind.bind, Except.bind, pure, Except.pure,
              Except.ok.injEq, Prod.mk.injEq] at h
            obtain ⟨_, hmt⟩ := h
            have ha := ih gsS gsA (kps.take (kps.length / 2)) ra.1 ra.2
              (by rw [h1]) sem f
            have hb := ih gsS gsA (kps.drop (kps.length / 2)) rb.1 rb.2
              (by rw [h2]) sem f
            rw [← hmt]
            show (mtSem sem f ra.2 || mtSem sem f rb.2)
              = kps.any (fun kp => fragSem sem f (fragOf gsA kp.kind kp.pat))
            rw [ha, hb, ← List.any_append, List.take_append_drop]
    · split at h
      · cases h
      · simp only [Except.ok.injEq, Prod.mk.injEq] at h
        obtain ⟨_, hmt⟩ := h
        rw [← hmt]
        show (kps.map (fun kp => fragOf gsA kp.kind kp.pat)).any (fragSem sem f)
          = kps.any (fun kp => fragSem sem f (fragOf gsA kp.kind kp.pat))
        rw [any_map_comp]

/-- C2: when the composed regex exceeds 20000 characters the builder
splits the list in half and ORs the two recursively built halves (see
`brmGo`); for every successfully built matcher and every input path, the
result equals what the un-split composed regex — the top-level alternation
of all the fragments — yields. -/
theorem c2_overflow_split_equiv :
    ∀ (gsS : Str) (gsA : RE) (kps : List KindPat) (r : Str) (mt : MT),
      buildregexmatch gsS gsA kps = .ok (r, mt) →
      ∀ (sem : Sem) (f : Str),
        mtSem sem f mt
          = kps.any (fun kp => fragSem sem f (fragOf gsA kp.kind kp.pat)) :=
  fun gsS gsA kps r mt h => brmGo_equiv (kps.length + 1) gsS gsA kps r mt h

/-- C2 witness: the equivalence at a concrete one-pattern build. -/
theorem c2_overflow_split_equiv_witness :
    mtSem semEq (S "a") (MT.leaf [Frag.raw (S "a")])
      = [({ kind := Kind.re, pat := S "a", src := [] } : KindPat)].any
          (fun kp => fragSem semEq (S "a") (fragOf RE.eos kp.kind kp.pat)) :=
  c2_overflow_split_equiv (S "$") RE.eos [⟨Kind.re, S "a", []⟩] (S "(?:a)")
    (MT.leaf [Frag.raw (S "a")]) rfl semEq (S "a")

/-- An unreadable `listfile` is a fatal abort. -/
theorem donormStep_listfile_none {fs : FS} {warnOn recur pat0 dk root cwd}
    (h : fs pat0 = none) :
    donormStep fs warnOn recur Kind.listfile pat0 dk root cwd
      = .error (S "unable to read file list (" ++ pat0 ++ S ")") := by
  simp [donormStep, h]

/-- An unreadable `include` only contributes a warning. -/
theorem donormStep_incl_none {fs : FS} {recur pat0 dk root cwd}
    (h : fs (joinPath root (localpath pat0)) = none) :
    donormStep fs true recur Kind.incl pat0 dk root cwd
      = .ok ([], [S "skipping unreadable pattern file '" ++ pat0 ++ S "'\n"]) := by
  simp [donormStep, h]

/-- A nested abort inside an `include` file is re-raised with the include
pattern prefixed. -/
theorem donormStep_incl_err {fs : FS} {recur pat0 dk root cwd c e}
    (h : fs (joinPath root (localpath pat0)) = some c)
    (h2 : recur (readpatternfile (joinPath root (localpath pat0)) c true).1
            dk root cwd = .error e) :
    donormStep fs true recur Kind.incl pat0 dk root cwd
      = .error (pat0 ++ S ": " ++ e) := by
  simp [donormStep, h, h2]

/-- C8: during normalization an unreadable `listfile` aborts normalization
with a fatal error; an unreadable `include` file only records a warning,
skips the pattern and continues with the remaining patterns; and an error
raised while normalizing the contents of an `include` file propagates,
prefixed with the include pattern. -/
theorem c8_normalize_error_handling :
    (∀ (fs : FS) (rest : List Str) (dk : Kind) (root cwd : Str) (fuel : Nat),
       fs (S "lst") = none →
       donorm fs true (fuel + 1) (S "listfile:lst" :: rest) dk root cwd
         = .error (S "unable to read file list (lst)")) ∧
    (∀ (fs : FS) (rest : List Str) (dk : Kind) (fuel : Nat),
       fs (S "inc") = none →
       donorm fs true (fuel + 1) (S "include:inc" :: rest) dk (S "") (S "")
         = (donorm fs true (fuel + 1) rest dk (S "") (S "")).map
             (fun r => (r.1, S "skipping unreadable pattern file 'inc'\n" :: r.2))) ∧
    (∀ (fs : FS) (c e : Str) (rest : List Str) (dk : Kind) (fuel : Nat),
       fs (S "inc") = some c →
       donorm fs true fuel (readpatternfile (S "inc") c true).1 dk (S "") (S "")
         = .error e →
       donorm fs true (fuel + 1) (S "include:inc" :: rest) dk (S "") (S "")
         = .error (S "inc: " ++ e)) := by
  refine ⟨?_, ?_, ?_⟩
  · intro fs rest dk root cwd fuel h
    show donormGo fs true (donorm fs true fuel)
      (S "listfile:lst" :: rest) dk root cwd = _
    simp only [donormGo,
      show patsplit (S "listfile:lst") dk = (Kind.listfile, S "lst") from rfl]
    rw [donormStep_listfile_none h]
    rfl
  · intro fs rest dk fuel h
    show donormGo fs true (donorm fs true fuel)
      (S "include:inc" :: rest) dk (S "") (S "") = _
    simp only [donormGo,
      show patsplit (S "include:inc") dk = (Kind.incl, S "inc") from rfl]
    rw [donormStep_incl_none
      (show fs (joinPath (S "") (localpath (S "inc"))) = none from h)]
    have hd : donorm fs true (fuel + 1) rest dk (S "") (S "")
        = donormGo fs true (donorm fs true fuel) rest dk (S "") (S "") := rfl
    rw [hd]
    cases hr : donormGo fs true (donorm fs true fuel) rest dk (S "") (S "") with
    | error e => simp [Bind.bind, Except.bind, Except.map, hr]
    | ok r2 =>
      simp only [Bind.bind, Except.bind, Except.map, hr]
      rfl
  · intro fs c e rest dk fuel h h2
    show donormGo fs true (donorm fs true fuel)
      (S "include:inc" :: rest) dk (S "") (S "") = _
    simp only [donormGo,
      show patsplit (S "include:inc") dk = (Kind.incl, S "inc") from rfl]
    rw [donormStep_incl_err
      (show fs (joinPath (S "") (localpath (S "inc"))) = some c from h)
      (show donorm fs true fuel
          (readpatternfile (joinPath (S "") (localpath (S "inc"))) c true).1
          dk (S "") (S "") = .error e from h2)]
    rfl

/-- A file system holding one self-including pattern file. -/
def fsInc : FS := fun p => if p = S "inc" then some (S "include:inc") else none

/-- C8 witness: the three behaviors at concrete file systems (the nested
error of the third part is the exhausted recursion bound of the
self-including file). -/
theorem c8_normalize_error_handling_witness :
    donorm noFS true 1 [S "listfile:lst"] Kind.glob (S "a") (S "b")
      = .error (S "unable to read file list (lst)") ∧
    donorm noFS true 1 [S "include:inc"] Kind.glob (S "") (S "")
      = .ok ([], [S "skipping unreadable pattern file 'inc'\n"]) ∧
    donorm fsInc true 1 [S "include:inc"] Kind.glob (S "") (S "")
      = .error (S "inc: recursion limit reached") := by
  refine ⟨c8_normalize_error_handling.1 noFS [] Kind.glob (S "a") (S "b") 0 rfl,
    ?_, ?_⟩
  · have h := c8_normalize_error_handling.2.1 noFS [] Kind.glob 0 rfl
    rw [h]; rfl
  · exact c8_normalize_error_handling.2.2 fsInc (S "include:inc")
      (S "recursion limit reached") [] Kind.glob 0 rfl rfl

end HgMatch
